import Mathlib

/-!
# Verification of the UUID / hash utility core

Shallow embedding of the repository's UUID generation and parsing
subsystem (`generateV1Uuid`, `generateV4Uuid`, `generateV5Uuid`,
`generateUuid`, `generateBulkUuids`, `formatUuid`, `isValidUuid`,
`parseUuid`) and of `validateHashFormat` from the hashing utilities.

Modelling conventions:
* JavaScript numbers are modelled as exact naturals / integers.  All
  arithmetic appearing in the claims is exact in IEEE doubles at the
  concrete inputs used, except where a comment notes otherwise.
* `Uint8Array` values are `List ℕ` together with hypotheses that every
  entry is `< 256` and that the length matches the allocation.
* `crypto.getRandomValues` and `Date.now()` are free inputs threaded
  through an `Entropy` record; `crypto.subtle.digest('SHA-1', ·)` is a
  function parameter `sha1 : List ℕ → List ℕ`.
* Thrown exceptions are `Except.error`; a fulfilled promise is
  `Except.ok`.
* JavaScript strings are Lean `String`s; the global dash-removing
  `replace` is a character filter, `toLowerCase`/`toUpperCase` are `Char.toLower` /
  `Char.toUpper` mapped over the characters (these agree with
  JavaScript on the ASCII characters that occur in UUID strings).
-/

/-- The hexadecimal digit characters accepted by the character class
`[0-9a-fA-F]` of the source regexes: the code-point ranges 48-57
(`0`-`9`), 97-102 (`a`-`f`) and 65-70 (`A`-`F`). -/
def hexDigitChars : List Char :=
  (List.range 10).map (fun i => Char.ofNat (48 + i))
    ++ (List.range 6).map (fun i => Char.ofNat (97 + i))
    ++ (List.range 6).map (fun i => Char.ofNat (65 + i))

/-- `[0-9a-fA-F]` character-class test. -/
def isHexDigit (c : Char) : Bool := hexDigitChars.contains c

/-- Version characters `[1-5]` of the `isValidUuid` regex. -/
def versionChars : List Char := ['1', '2', '3', '4', '5']

/-- Variant characters `[89ab]` of the `isValidUuid` regex; the regex
carries the `i` flag, so the uppercase forms are accepted too. -/
def variantChars : List Char := ['8', '9', 'a', 'b', 'A', 'B']

/-- The digit characters used by `Number.prototype.toString(16)`:
`0`-`9` then lowercase `a`-`f`. -/
def hexDigitChar (n : ℕ) : Char :=
  if n < 10 then Char.ofNat (48 + n) else Char.ofNat (87 + n)

/-- Accumulator loop of hexadecimal rendering: peel off base-16 digits,
most significant ending up first.  Structural recursion on a fuel
argument; any fuel at least the number of digits gives the full
rendering of `n.toString(16)`, and `natToHex` passes `n` itself,
which always suffices. -/
def toHexCore : ℕ → ℕ → List Char → List Char
  | 0, _, acc => acc
  | fuel + 1, n, acc =>
    if n = 0 then acc
    else toHexCore fuel (n / 16) (hexDigitChar (n % 16) :: acc)

/-- `n.toString(16)` for a natural number: lowercase hex digits, and
`"0"` for zero. -/
def natToHex (n : ℕ) : List Char :=
  if n = 0 then ['0'] else toHexCore n n []

/-- `String.prototype.padStart(width, c)` on a character list. -/
def padStart (width : ℕ) (c : Char) (l : List Char) : List Char :=
  List.replicate (width - l.length) c ++ l

/-- `b.toString(16).padStart(2, '0')`: two-digit hex rendering of a
byte. -/
def byteHex (b : ℕ) : List Char := padStart 2 '0' (natToHex b)

/-- Value of a hex digit character, as read by `parseInt(·, 16)`.  The
fallback `0` is never reached on the hex strings this development
applies it to. -/
def hexCharVal (c : Char) : ℕ :=
  if 48 ≤ c.toNat ∧ c.toNat ≤ 57 then c.toNat - 48
  else if 97 ≤ c.toNat ∧ c.toNat ≤ 102 then c.toNat - 87
  else if 65 ≤ c.toNat ∧ c.toNat ≤ 70 then c.toNat - 55
  else 0

/-- `parseInt(s, 16)` on a string of hex digits. -/
def parseHexNat (l : List Char) : ℕ :=
  l.foldl (fun a c => 16 * a + hexCharVal c) 0

/-- The dash-stripping `replace` with the global dash regex: drop every
dash character. -/
def stripDashes (cs : List Char) : List Char :=
  cs.filter (fun c => c != '-')

/-- Contiguous slice of `len` characters starting at `start`; the
building block of the `isValidUuid` structure check. -/
def group (cs : List Char) (start len : ℕ) : List Char :=
  (cs.drop start).take len

/-- `isValidUuid` : the regex
`^[0-9a-f]{8}-[0-9a-f]{4}-[1-5][0-9a-f]{3}-[89ab][0-9a-f]{3}-[0-9a-f]{12}$/i`
spelled out position by position. -/
def isValidUuid (s : String) : Bool :=
  let cs := s.data
  cs.length == 36
  && (group cs 0 8).all isHexDigit
  && group cs 8 1 == ['-']
  && (group cs 9 4).all isHexDigit
  && group cs 13 1 == ['-']
  && (group cs 14 1).all versionChars.contains
  && (group cs 15 3).all isHexDigit
  && group cs 18 1 == ['-']
  && (group cs 19 1).all variantChars.contains
  && (group cs 20 3).all isHexDigit
  && group cs 23 1 == ['-']
  && (group cs 24 12).all isHexDigit

/-- Regroup 32 hex characters as `8-4-4-4-12` with dashes; the
`[hex.slice(0,8), hex.slice(8,12), ...]` joined with dashes, shared by the
generators and by `formatUuid`. -/
def dashed32 (cs : List Char) : List Char :=
  cs.take 8 ++ '-' :: ((cs.drop 8).take 4 ++ '-' :: ((cs.drop 12).take 4
    ++ '-' :: ((cs.drop 16).take 4 ++ '-' :: (cs.drop 20).take 12)))

/-- UTF-8 encoding of one Unicode scalar value, as produced by
`TextEncoder.prototype.encode`. -/
def utf8EncodeChar (c : Char) : List ℕ :=
  let n := c.toNat
  if n < 0x80 then [n]
  else if n < 0x800 then [0xc0 ||| (n / 64), 0x80 ||| (n % 64)]
  else if n < 0x10000 then
    [0xe0 ||| (n / 4096), 0x80 ||| (n / 64 % 64), 0x80 ||| (n % 64)]
  else
    [0xf0 ||| (n / 262144), 0x80 ||| (n / 4096 % 64),
     0x80 ||| (n / 64 % 64), 0x80 ||| (n % 64)]

/-- `new TextEncoder().encode(s)`. -/
def utf8Encode (s : String) : List ℕ :=
  (s.data.map utf8EncodeChar).flatten

/-- `hex.match(/.{2}/g)` : split into consecutive two-character chunks,
discarding a trailing odd character. -/
def hexPairs : List Char → List (List Char)
  | a :: b :: rest => [a, b] :: hexPairs rest
  | _ => []

/-- The 16 raw bytes of a UUID string:
`hex.match(/.{2}/g).map(byte => parseInt(byte, 16))` after dash
removal. -/
def uuidStringToBytes (s : String) : List ℕ :=
  (hexPairs (stripDashes s.data)).map parseHexNat

/-- The supported UUID versions. -/
inductive UuidVersion
  | v1
  | v4
  | v5
deriving DecidableEq, Repr, BEq

/-- The supported output styles of `formatUuid`. -/
inductive UuidFormat
  | standard
  | noDashes
  | uppercase
  | uppercaseNoDashes
deriving DecidableEq, Repr

/-- `generateV4Uuid`, as a function of the 16 random bytes delivered by
`crypto.getRandomValues`. -/
def generateV4Uuid (randomBytes : List ℕ) : String :=
  let b1 := randomBytes.set 6 ((randomBytes.getD 6 0 &&& 0x0f) ||| 0x40)
  let b2 := b1.set 8 ((b1.getD 8 0 &&& 0x3f) ||| 0x80)
  let hex := (b2.map byteHex).flatten
  ⟨dashed32 hex⟩

/-- Ticks between 1582-10-15 and the Unix epoch, in 100 ns units. -/
def GREGORIAN_OFFSET : ℕ := 0x01b21dd213814000

/-- The `timeHex` local of `generateV1Uuid`:
`(now * 10000 + 0x01b21dd213814000).toString(16).padStart(16, '0')`. -/
def v1TimeHex (now : ℕ) : List Char :=
  padStart 16 '0' (natToHex (now * 10000 + GREGORIAN_OFFSET))

/-- The `timeLow` local of `generateV1Uuid`: `timeHex.slice(-8)`. -/
def v1TimeLow (now : ℕ) : List Char :=
  (v1TimeHex now).drop ((v1TimeHex now).length - 8)

/-- The `timeMid` local of `generateV1Uuid`: `timeHex.slice(-12, -8)`. -/
def v1TimeMid (now : ℕ) : List Char :=
  ((v1TimeHex now).take ((v1TimeHex now).length - 8)).drop ((v1TimeHex now).length - 12)

/-- The `timeHiAndVersion` local of `generateV1Uuid`:
`(parseInt(timeHex.slice(-16, -12), 16) & 0x0fff | 0x1000).toString(16).padStart(4, '0')`. -/
def v1TimeHiAndVersion (now : ℕ) : List Char :=
  padStart 4 '0' (natToHex
    ((parseHexNat (((v1TimeHex now).take ((v1TimeHex now).length - 12)).drop
      ((v1TimeHex now).length - 16)) &&& 0x0fff) ||| 0x1000))

/-- The `clockSeq` local of `generateV1Uuid`: two random bytes with
the top two bits of the first forced to `10`. -/
def v1ClockSeq (clockSeq0 : List ℕ) : List ℕ :=
  clockSeq0.set 0 (((clockSeq0.getD 0 0) &&& 0x3f) ||| 0x80)

/-- The `node` local of `generateV1Uuid`: six random bytes with the
low bit of the first forced to 1. -/
def v1Node (node0 : List ℕ) : List ℕ :=
  node0.set 0 ((node0.getD 0 0) ||| 0x01)

/-- `generateV1Uuid`, as a function of `Date.now()` and of the random
node / clock-sequence bytes.  `now * 10000 + GREGORIAN_OFFSET` is exact
here where the double rounding of the source is at most 16 ticks
(1.6 µs) for dates before the year 2039; none of the verified
properties depend on the low bits of the tick count. -/
def generateV1Uuid (now : ℕ) (node0 clockSeq0 : List ℕ) : String :=
  ⟨v1TimeLow now ++ '-' :: (v1TimeMid now ++ '-' :: (v1TimeHiAndVersion now
    ++ '-' :: (((v1ClockSeq clockSeq0).map byteHex).flatten
      ++ '-' :: ((v1Node node0).map byteHex).flatten)))⟩

/-- `generateV5Uuid`, with the SHA-1 primitive abstracted as a function
from input bytes to the 20 digest bytes. -/
def generateV5Uuid (sha1 : List ℕ → List ℕ) (ns nm : String) : String :=
  let namespaceBytes :=
    if isValidUuid ns then uuidStringToBytes ns else utf8Encode ns
  let nameBytes := utf8Encode nm
  let combined := namespaceBytes ++ nameBytes
  let hashBytes := sha1 combined
  let h1 := hashBytes.set 6 ((hashBytes.getD 6 0 &&& 0x0f) ||| 0x50)
  let h2 := h1.set 8 ((h1.getD 8 0 &&& 0x3f) ||| 0x80)
  let hex := ((h2.take 16).map byteHex).flatten
  ⟨dashed32 hex⟩

/-- JavaScript truthiness of an optional string argument: `undefined`
and the empty string are falsy. -/
def optTruthy : Option String → Bool
  | none => false
  | some s => !(s == "")

/-- The entropy consumed by one call of `generateUuid`: the clock and
the random bytes requested from `crypto.getRandomValues`. -/
structure Entropy where
  now : ℕ
  rand16 : List ℕ
  node6 : List ℕ
  clock2 : List ℕ

/-- `generateUuid(version, namespace?, name?)`: dispatch on the version,
throwing when v5 parameters are missing or empty. -/
def generateUuid (e : Entropy) (sha1 : List ℕ → List ℕ)
    (version : UuidVersion) (ns nm : Option String) : Except String String :=
  match version with
  | .v1 => .ok (generateV1Uuid e.now e.node6 e.clock2)
  | .v4 => .ok (generateV4Uuid e.rand16)
  | .v5 =>
    if !(optTruthy ns) || !(optTruthy nm) then
      .error "v5 UUIDs require both namespace and name parameters"
    else
      .ok (generateV5Uuid sha1 (ns.getD "") (nm.getD ""))

/-- `generateBulkUuids(count, version, namespace?, name?)`.  The count
check throws before any UUID is produced; the v5 branch suffixes the
name with the loop index unless the count is exactly 1. -/
def generateBulkUuids (env : ℕ → Entropy) (sha1 : List ℕ → List ℕ)
    (count : ℤ) (version : UuidVersion) (ns nm : Option String) :
    Except String (List String) :=
  if count ≤ 0 ∨ 1000 < count then
    .error "Count must be between 1 and 1000"
  else if version == UuidVersion.v5 && optTruthy ns && optTruthy nm then
    .ok ((List.range count.toNat).map fun i =>
      generateV5Uuid sha1 (ns.getD "")
        (if count = 1 then nm.getD "" else nm.getD "" ++ "_" ++ toString i))
  else
    (List.range count.toNat).mapM fun i => generateUuid (env i) sha1 version ns nm

/-- `formatUuid(uuid, format)` : strip dashes, then re-render in the
requested style. -/
def formatUuid (uuid : String) (format : UuidFormat) : String :=
  let cleanUuid := stripDashes uuid.data
  match format with
  | .standard => ⟨(dashed32 cleanUuid).map Char.toLower⟩
  | .noDashes => ⟨cleanUuid.map Char.toLower⟩
  | .uppercase => ⟨(dashed32 cleanUuid).map Char.toUpper⟩
  | .uppercaseNoDashes => ⟨cleanUuid.map Char.toUpper⟩

/-- Result record of `parseUuid`.  The absent `timestamp` property of
the JavaScript object is `none`. -/
structure ParseResult where
  version : ℕ
  variant : String
  isValid : Bool
  timestamp : Option ℤ
deriving DecidableEq, Repr

/-- `parseUuid(uuid)`.  The v1 timestamp is reconstructed exactly as the
source writes it — `timeHi * 2^32 + timeMid * 2^16 + timeLow` — and the
`new Date(x)` time-value clipping truncates toward zero, which
`Int.tdiv` reproduces.  (The double rounding of the source's subtraction
is below 16 ticks and is irrelevant to the properties proved from this
definition, all of which have margins above one second.) -/
def parseUuid (s : String) : ParseResult :=
  if isValidUuid s then
    let hex := stripDashes s.data
    let version := hexCharVal (hex.getD 12 '0')
    let variantBits := hexCharVal (hex.getD 16 '0')
    let variant :=
      if variantBits &&& 0x8 == 0 then "NCS backward compatibility"
      else if variantBits &&& 0xc == 0x8 then "RFC 4122"
      else if variantBits &&& 0xe == 0xc then "Microsoft backward compatibility"
      else "Reserved for future use"
    let timestamp : Option ℤ :=
      if version == 1 then
        let timeLow := parseHexNat (hex.take 8)
        let timeMid := parseHexNat ((hex.drop 8).take 4)
        let timeHi := parseHexNat ((hex.drop 12).take 4) &&& 0x0fff
        some (Int.tdiv
          ((timeHi : ℤ) * 2 ^ 32 + (timeMid : ℤ) * 2 ^ 16 + (timeLow : ℤ)
            - (GREGORIAN_OFFSET : ℤ)) 10000)
      else none
    { version := version, variant := variant, isValid := true, timestamp := timestamp }
  else
    { version := 0, variant := "invalid", isValid := false, timestamp := none }

/-- The hash algorithms of the Digest Engine. -/
inductive HashAlgorithm
  | MD5
  | SHA1
  | SHA256
  | SHA512
deriving DecidableEq, Repr

/-- Expected hex-digest length per algorithm (the `lengths` record of
`validateHashFormat`). -/
def hashHexLength : HashAlgorithm → ℕ
  | .MD5 => 32
  | .SHA1 => 40
  | .SHA256 => 64
  | .SHA512 => 128

/-- `validateHashFormat(hash, algorithm)` : exact expected length and
the regex `^[a-fA-F0-9]+$`. -/
def validateHashFormat (hash : String) (algorithm : HashAlgorithm) : Bool :=
  hash.length == hashHexLength algorithm
    && (!hash.data.isEmpty && hash.data.all isHexDigit)

/-! ## Basic facts about hex digits and characters -/

set_option maxRecDepth 4000

theorem isHexDigit_iff (c : Char) : isHexDigit c = true ↔ c ∈ hexDigitChars := by
  simp [isHexDigit]

theorem hexDigitChar_mem : ∀ m < 16, hexDigitChar m ∈ hexDigitChars := by decide

theorem mem_hexDigitChars_ne_dash : ∀ c ∈ hexDigitChars, (c != '-') = true := by decide

theorem versionChars_sub_hex : ∀ c ∈ versionChars, c ∈ hexDigitChars := by decide

theorem variantChars_sub_hex : ∀ c ∈ variantChars, c ∈ hexDigitChars := by decide

/-! ## Facts about hexadecimal rendering -/

theorem toHexCore_step (fuel n : ℕ) (acc : List Char) (hn : n ≠ 0) (hf : fuel ≠ 0) :
    toHexCore fuel n acc = toHexCore (fuel - 1) (n / 16) (hexDigitChar (n % 16) :: acc) := by
  match fuel, hf with
  | f + 1, _ => simp [toHexCore, hn]

theorem toHexCore_zero (fuel : ℕ) (acc : List Char) : toHexCore fuel 0 acc = acc := by
  cases fuel <;> simp [toHexCore]

theorem toHexCore_mem (fuel : ℕ) : ∀ (n : ℕ) (acc : List Char),
    (∀ c ∈ acc, c ∈ hexDigitChars) → ∀ c ∈ toHexCore fuel n acc, c ∈ hexDigitChars := by
  induction fuel with
  | zero => intro n acc hacc c hc; exact hacc c hc
  | succ f ih =>
    intro n acc hacc c hc
    rcases eq_or_ne n 0 with rfl | hn
    · rw [toHexCore_zero] at hc
      exact hacc c hc
    · rw [toHexCore_step _ _ _ hn (Nat.succ_ne_zero f)] at hc
      refine ih _ _ ?_ c (by simpa using hc)
      intro d hd
      rcases List.mem_cons.mp hd with rfl | hd
      · exact hexDigitChar_mem _ (Nat.mod_lt _ (by norm_num))
      · exact hacc d hd

theorem natToHex_mem (n : ℕ) : ∀ c ∈ natToHex n, c ∈ hexDigitChars := by
  intro c hc
  unfold natToHex at hc
  split at hc
  · simp only [List.mem_singleton] at hc
    subst hc; decide
  · exact toHexCore_mem n n [] (by simp) c hc

theorem padStart_mem (w : ℕ) (l : List Char) (h : ∀ c ∈ l, c ∈ hexDigitChars) :
    ∀ c ∈ padStart w '0' l, c ∈ hexDigitChars := by
  intro c hc
  rcases List.mem_append.mp hc with hc | hc
  · rw [List.eq_of_mem_replicate hc]; decide
  · exact h c hc

theorem byteHex_mem (b : ℕ) : ∀ c ∈ byteHex b, c ∈ hexDigitChars :=
  padStart_mem 2 _ (natToHex_mem b)

theorem natToHex_one_digit (n : ℕ) (h : n < 16) : natToHex n = [hexDigitChar n] := by
  unfold natToHex
  split
  · subst ‹n = 0›; decide
  · rw [toHexCore_step _ _ _ ‹n ≠ 0› ‹n ≠ 0›, Nat.div_eq_of_lt h, Nat.mod_eq_of_lt h,
      toHexCore_zero]

theorem natToHex_two_digit (n : ℕ) (h1 : 16 ≤ n) (h2 : n < 256) :
    natToHex n = [hexDigitChar (n / 16), hexDigitChar (n % 16)] := by
  have hne : n ≠ 0 := by omega
  have h16 : n / 16 ≠ 0 := by
    have := (Nat.one_le_div_iff (show 0 < 16 by norm_num)).mpr h1
    omega
  have hd : n / 16 < 16 := Nat.div_lt_of_lt_mul (by omega)
  unfold natToHex
  rw [if_neg hne, toHexCore_step _ _ _ hne hne, toHexCore_step _ _ _ h16 (by omega),
    Nat.div_div_eq_div_mul, Nat.div_eq_of_lt (show n < 16 * 16 by omega),
    toHexCore_zero, Nat.mod_eq_of_lt hd]

theorem natToHex_four_digit (v : ℕ) (h1 : 4096 ≤ v) (h2 : v < 8192) :
    natToHex v = ['1', hexDigitChar (v / 256 % 16), hexDigitChar (v / 16 % 16),
      hexDigitChar (v % 16)] := by
  have hv0 : v ≠ 0 := by omega
  have e1 : v / 16 / 16 = v / 256 := by rw [Nat.div_div_eq_div_mul]
  have e2 : v / 256 / 16 = v / 4096 := by rw [Nat.div_div_eq_div_mul]
  have e3 : v / 4096 / 16 = v / 65536 := by rw [Nat.div_div_eq_div_mul]
  have h16 : v / 16 ≠ 0 := by
    have := (Nat.one_le_div_iff (show 0 < 16 by norm_num)).mpr (show 16 ≤ v by omega)
    omega
  have h256 : v / 256 ≠ 0 := by
    have := (Nat.one_le_div_iff (show 0 < 256 by norm_num)).mpr (show 256 ≤ v by omega)
    omega
  have h4096 : v / 4096 = 1 := by
    have ha := (Nat.one_le_div_iff (show 0 < 4096 by norm_num)).mpr h1
    have hb := Nat.div_lt_of_lt_mul (show v < 2 * 4096 by omega)
    omega
  have h65536 : v / 65536 = 0 := Nat.div_eq_of_lt (by omega)
  unfold natToHex
  rw [if_neg hv0, toHexCore_step _ _ _ hv0 hv0, toHexCore_step _ _ _ h16 (by omega), e1,
    toHexCore_step _ _ _ h256 (by omega), e2, toHexCore_step _ _ _ (by omega) (by omega),
    e3, h65536, toHexCore_zero, h4096]
  rfl

theorem byteHex_eq (b : ℕ) (hb : b < 256) :
    byteHex b = [if b < 16 then '0' else hexDigitChar (b / 16), hexDigitChar (b % 16)] := by
  by_cases h : b < 16
  · rw [if_pos h]
    unfold byteHex
    rw [natToHex_one_digit b h, Nat.mod_eq_of_lt h]
    rfl
  · rw [if_neg h]
    unfold byteHex
    rw [natToHex_two_digit b (by omega) hb]
    rfl

theorem byteHex_length (b : ℕ) (hb : b < 256) : (byteHex b).length = 2 := by
  rw [byteHex_eq b hb]
  rfl

/-! ## Indexing into the concatenated two-digit hex blocks -/

theorem flatten_byteHex_length (bs : List ℕ) (hb : ∀ b ∈ bs, b < 256) :
    ((bs.map byteHex).flatten).length = 2 * bs.length := by
  induction bs with
  | nil => rfl
  | cons b rest ih =>
    simp only [List.map_cons, List.flatten_cons, List.length_append,
      byteHex_length b (hb b (List.mem_cons_self b rest)),
      ih (fun x hx => hb x (List.mem_cons_of_mem b hx)), List.length_cons]
    ring

theorem flatten_byteHex_get (bs : List ℕ) (hb : ∀ b ∈ bs, b < 256) :
    ∀ k < bs.length,
      ((bs.map byteHex).flatten)[2 * k]? =
        some (if bs.getD k 0 < 16 then '0' else hexDigitChar (bs.getD k 0 / 16)) := by
  induction bs with
  | nil => intro k hk; simp at hk
  | cons b rest ih =>
    intro k hk
    have hb0 : b < 256 := hb b (List.mem_cons_self b rest)
    rcases k with _ | k
    · simp only [Nat.mul_zero, List.map_cons, List.flatten_cons, byteHex_eq b hb0]
      rfl
    · have e : 2 * (k + 1) = (2 * k + 1) + 1 := by ring
      simp only [List.map_cons, List.flatten_cons, byteHex_eq b hb0, e,
        List.cons_append, List.getElem?_cons_succ]
      have := ih (fun x hx => hb x (List.mem_cons_of_mem b hx)) k
        (by simpa using Nat.lt_of_succ_lt_succ hk)
      simpa using this

theorem flatten_byteHex_mem (bs : List ℕ) :
    ∀ c ∈ (bs.map byteHex).flatten, c ∈ hexDigitChars := by
  intro c hc
  rcases List.mem_flatten.mp hc with ⟨l, hl, hcl⟩
  rcases List.mem_map.mp hl with ⟨b, _, rfl⟩
  exact byteHex_mem b c hcl

/-! ## Dash stripping -/

theorem stripDashes_of_hex (l : List Char) (h : ∀ c ∈ l, c ∈ hexDigitChars) :
    stripDashes l = l :=
  List.filter_eq_self.mpr fun c hc => mem_hexDigitChars_ne_dash c (h c hc)

theorem take_32_split (cs : List Char) :
    cs.take 32 = cs.take 8 ++ ((cs.drop 8).take 4 ++ ((cs.drop 12).take 4
      ++ ((cs.drop 16).take 4 ++ (cs.drop 20).take 12))) := by
  have e8 : cs.take 32 = cs.take 8 ++ (cs.drop 8).take 24 := List.take_add cs 8 24
  have e12 : (cs.drop 8).take 24 = (cs.drop 8).take 4 ++ (cs.drop 12).take 20 := by
    have := List.take_add (cs.drop 8) 4 20
    rwa [List.drop_drop] at this
  have e16 : (cs.drop 12).take 20 = (cs.drop 12).take 4 ++ (cs.drop 16).take 16 := by
    have := List.take_add (cs.drop 12) 4 16
    rwa [List.drop_drop] at this
  have e20 : (cs.drop 16).take 16 = (cs.drop 16).take 4 ++ (cs.drop 20).take 12 := by
    have := List.take_add (cs.drop 16) 4 12
    rwa [List.drop_drop] at this
  rw [e8, e12, e16, e20]

theorem stripDashes_dashed32 (cs : List Char) (h32 : cs.length = 32)
    (hnd : ∀ c ∈ cs, c ∈ hexDigitChars) : stripDashes (dashed32 cs) = cs := by
  have hpiece : ∀ l : List Char, (∀ c ∈ l, c ∈ cs) →
      l.filter (fun c => c != '-') = l := by
    intro l hl
    exact List.filter_eq_self.mpr fun c hc =>
      mem_hexDigitChars_ne_dash c (hnd c (hl c hc))
  have hstrip : stripDashes (dashed32 cs)
      = cs.take 8 ++ ((cs.drop 8).take 4 ++ ((cs.drop 12).take 4
        ++ ((cs.drop 16).take 4 ++ (cs.drop 20).take 12))) := by
    unfold stripDashes dashed32
    simp only [List.filter_append, List.filter_cons]
    norm_num
    rw [hpiece _ (fun c hc => List.mem_of_mem_take hc),
      hpiece _ (fun c hc => List.mem_of_mem_drop (List.mem_of_mem_take hc)),
      hpiece _ (fun c hc => List.mem_of_mem_drop (List.mem_of_mem_take hc)),
      hpiece _ (fun c hc => List.mem_of_mem_drop (List.mem_of_mem_take hc)),
      hpiece _ (fun c hc => List.mem_of_mem_drop (List.mem_of_mem_take hc))]
  rw [hstrip, ← take_32_split, ← h32, List.take_length]

/-- 13th / 17th hex digit (0-indexed 12 / 16) of a UUID string, after
removing the dashes — the positions `parseUuid` reads the version and
variant nibbles from. -/
def nthHex (s : String) (k : ℕ) : Option Char := (stripDashes s.data)[k]?

theorem right_le_or (a b : ℕ) : b ≤ a ||| b :=
  Nat.le_of_testBit (by intro i h; simp [Nat.testBit_or, h])

theorem v4_digits (bytes : List ℕ) (h16 : bytes.length = 16)
    (hb : ∀ b ∈ bytes, b < 256) :
    nthHex (generateV4Uuid bytes) 12 = some '4'
    ∧ ∃ c, nthHex (generateV4Uuid bytes) 16 = some c
        ∧ c ∈ (['8', '9', 'a', 'b'] : List Char) := by
  have hfact6 : ∀ m < 16, hexDigitChar ((m ||| 64) / 16) = '4'
      ∧ ¬ (m ||| 64) < 16 ∧ (m ||| 64) < 256 := by decide
  have hfact8 : ∀ m < 64, hexDigitChar ((m ||| 128) / 16) ∈ (['8', '9', 'a', 'b'] : List Char)
      ∧ ¬ (m ||| 128) < 16 ∧ (m ||| 128) < 256 := by decide
  have hm6 : bytes.getD 6 0 &&& 15 < 16 := Nat.lt_succ_of_le Nat.and_le_right
  set v6 := (bytes.getD 6 0 &&& 0x0f) ||| 0x40 with hv6
  set b1 := bytes.set 6 v6 with hb1
  have hm8 : b1.getD 8 0 &&& 63 < 64 := Nat.lt_succ_of_le Nat.and_le_right
  set v8 := (b1.getD 8 0 &&& 0x3f) ||| 0x80 with hv8
  set b2 := b1.set 8 v8 with hb2
  have h6 := hfact6 _ hm6
  have h8 := hfact8 _ hm8
  have hb2lt : ∀ b ∈ b2, b < 256 := by
    intro b hbmem
    rcases List.mem_or_eq_of_mem_set hbmem with hbmem | rfl
    · rcases List.mem_or_eq_of_mem_set hbmem with hbmem | rfl
      · exact hb b hbmem
      · exact h6.2.2
    · exact h8.2.2
  have hb2len : b2.length = 16 := by
    rw [hb2, hb1, List.length_set, List.length_set, h16]
  have hgen : (generateV4Uuid bytes).data = dashed32 ((b2.map byteHex).flatten) := rfl
  have hexlen : ((b2.map byteHex).flatten).length = 32 := by
    rw [flatten_byteHex_length b2 hb2lt, hb2len]
  have hexmem := flatten_byteHex_mem b2
  have hstrip : stripDashes (generateV4Uuid bytes).data = (b2.map byteHex).flatten := by
    rw [hgen, stripDashes_dashed32 _ hexlen hexmem]
  have hget6 : b2.getD 6 0 = v6 := by
    rw [List.getD_eq_getElem?_getD, hb2, List.getElem?_set_ne (by norm_num), hb1,
      List.getElem?_set_self (by rw [h16]; norm_num)]
    rfl
  have hget8 : b2.getD 8 0 = v8 := by
    rw [List.getD_eq_getElem?_getD, hb2,
      List.getElem?_set_self (by rw [List.length_set, h16]; norm_num)]
    rfl
  constructor
  · show (stripDashes (generateV4Uuid bytes).data)[12]? = some '4'
    rw [hstrip, show (12 : ℕ) = 2 * 6 by norm_num,
      flatten_byteHex_get b2 hb2lt 6 (by rw [hb2len]; norm_num), hget6,
      if_neg h6.2.1, h6.1]
  · refine ⟨hexDigitChar (v8 / 16), ?_, h8.1⟩
    show (stripDashes (generateV4Uuid bytes).data)[16]? = some _
    rw [hstrip, show (16 : ℕ) = 2 * 8 by norm_num,
      flatten_byteHex_get b2 hb2lt 8 (by rw [hb2len]; norm_num), hget8,
      if_neg h8.2.1]

theorem v5_digits (sha1 : List ℕ → List ℕ) (ns nm : String)
    (hlen : ∀ bs, (sha1 bs).length = 20) (hval : ∀ bs, ∀ b ∈ sha1 bs, b < 256) :
    nthHex (generateV5Uuid sha1 ns nm) 12 = some '5'
    ∧ ∃ c, nthHex (generateV5Uuid sha1 ns nm) 16 = some c
        ∧ c ∈ (['8', '9', 'a', 'b'] : List Char) := by
  have hfact6 : ∀ m < 16, hexDigitChar ((m ||| 80) / 16) = '5'
      ∧ ¬ (m ||| 80) < 16 ∧ (m ||| 80) < 256 := by decide
  have hfact8 : ∀ m < 64, hexDigitChar ((m ||| 128) / 16) ∈ (['8', '9', 'a', 'b'] : List Char)
      ∧ ¬ (m ||| 128) < 16 ∧ (m ||| 128) < 256 := by decide
  set combined := (if isValidUuid ns then uuidStringToBytes ns else utf8Encode ns)
    ++ utf8Encode nm with hcombined
  set hs := sha1 combined with hhs
  have hm6 : hs.getD 6 0 &&& 15 < 16 := Nat.lt_succ_of_le Nat.and_le_right
  set v6 := (hs.getD 6 0 &&& 0x0f) ||| 0x50 with hv6
  set s1 := hs.set 6 v6 with hs1
  have hm8 : s1.getD 8 0 &&& 63 < 64 := Nat.lt_succ_of_le Nat.and_le_right
  set v8 := (s1.getD 8 0 &&& 0x3f) ||| 0x80 with hv8
  set s2 := s1.set 8 v8 with hs2
  set b2 := s2.take 16 with hb2
  have h6 := hfact6 _ hm6
  have h8 := hfact8 _ hm8
  have hs2lt : ∀ b ∈ s2, b < 256 := by
    intro b hbmem
    rcases List.mem_or_eq_of_mem_set hbmem with hbmem | rfl
    · rcases List.mem_or_eq_of_mem_set hbmem with hbmem | rfl
      · exact hval combined b hbmem
      · exact h6.2.2
    · exact h8.2.2
  have hb2lt : ∀ b ∈ b2, b < 256 := fun b hbmem => hs2lt b (List.mem_of_mem_take hbmem)
  have hs2len : s2.length = 20 := by
    rw [hs2, hs1, List.length_set, List.length_set, hhs, hlen]
  have hb2len : b2.length = 16 := by
    rw [hb2, List.length_take, hs2len]
    norm_num
  have hgen : (generateV5Uuid sha1 ns nm).data = dashed32 ((b2.map byteHex).flatten) := rfl
  have hexlen : ((b2.map byteHex).flatten).length = 32 := by
    rw [flatten_byteHex_length b2 hb2lt, hb2len]
  have hstrip : stripDashes (generateV5Uuid sha1 ns nm).data = (b2.map byteHex).flatten := by
    rw [hgen, stripDashes_dashed32 _ hexlen (flatten_byteHex_mem b2)]
  have hget6 : b2.getD 6 0 = v6 := by
    rw [List.getD_eq_getElem?_getD, hb2, List.getElem?_take, if_pos (by norm_num), hs2,
      List.getElem?_set_ne (by norm_num), hs1,
      List.getElem?_set_self (by rw [hhs, hlen]; norm_num)]
    rfl
  have hget8 : b2.getD 8 0 = v8 := by
    rw [List.getD_eq_getElem?_getD, hb2, List.getElem?_take, if_pos (by norm_num), hs2,
      List.getElem?_set_self (by rw [List.length_set, hhs, hlen]; norm_num)]
    rfl
  constructor
  · show (stripDashes (generateV5Uuid sha1 ns nm).data)[12]? = some '5'
    rw [hstrip, show (12 : ℕ) = 2 * 6 by norm_num,
      flatten_byteHex_get b2 hb2lt 6 (by rw [hb2len]; norm_num), hget6,
      if_neg h6.2.1, h6.1]
  · refine ⟨hexDigitChar (v8 / 16), ?_, h8.1⟩
    show (stripDashes (generateV5Uuid sha1 ns nm).data)[16]? = some _
    rw [hstrip, show (16 : ℕ) = 2 * 8 by norm_num,
      flatten_byteHex_get b2 hb2lt 8 (by rw [hb2len]; norm_num), hget8,
      if_neg h8.2.1]

theorem stripDashes_parts (A B C D E : List Char)
    (hA : ∀ c ∈ A, c ∈ hexDigitChars) (hB : ∀ c ∈ B, c ∈ hexDigitChars)
    (hC : ∀ c ∈ C, c ∈ hexDigitChars) (hD : ∀ c ∈ D, c ∈ hexDigitChars)
    (hE : ∀ c ∈ E, c ∈ hexDigitChars) :
    stripDashes (A ++ '-' :: (B ++ '-' :: (C ++ '-' :: (D ++ '-' :: E))))
      = A ++ (B ++ (C ++ (D ++ E))) := by
  unfold stripDashes
  simp only [List.filter_append, List.filter_cons, bne_self_eq_false,
    Bool.false_eq_true, if_false]
  rw [List.filter_eq_self.mpr (fun c hc => mem_hexDigitChars_ne_dash c (hA c hc)),
    List.filter_eq_self.mpr (fun c hc => mem_hexDigitChars_ne_dash c (hB c hc)),
    List.filter_eq_self.mpr (fun c hc => mem_hexDigitChars_ne_dash c (hC c hc)),
    List.filter_eq_self.mpr (fun c hc => mem_hexDigitChars_ne_dash c (hD c hc)),
    List.filter_eq_self.mpr (fun c hc => mem_hexDigitChars_ne_dash c (hE c hc))]

theorem v1_digits (now : ℕ) (node0 clock0 : List ℕ) (hc2 : clock0.length = 2)
    (hcb : ∀ b ∈ clock0, b < 256) :
    nthHex (generateV1Uuid now node0 clock0) 12 = some '1'
    ∧ ∃ c, nthHex (generateV1Uuid now node0 clock0) 16 = some c
        ∧ c ∈ (['8', '9', 'a', 'b'] : List Char) := by
  have hfact8 : ∀ m < 64, hexDigitChar ((m ||| 128) / 16) ∈ (['8', '9', 'a', 'b'] : List Char)
      ∧ ¬ (m ||| 128) < 16 ∧ (m ||| 128) < 256 := by decide
  have hthmem : ∀ c ∈ v1TimeHex now, c ∈ hexDigitChars := by
    unfold v1TimeHex
    exact padStart_mem _ _ (natToHex_mem _)
  have hL : 16 ≤ (v1TimeHex now).length := by
    unfold v1TimeHex padStart
    rw [List.length_append, List.length_replicate]
    omega
  -- time-low: 8 characters
  have hAlen : (v1TimeLow now).length = 8 := by
    unfold v1TimeLow
    rw [List.length_drop]
    omega
  have hAmem : ∀ c ∈ v1TimeLow now, c ∈ hexDigitChars := fun c hc =>
    hthmem c (List.mem_of_mem_drop hc)
  -- time-mid: 4 characters
  have hBlen : (v1TimeMid now).length = 4 := by
    unfold v1TimeMid
    rw [List.length_drop, List.length_take]
    omega
  have hBmem : ∀ c ∈ v1TimeMid now, c ∈ hexDigitChars := fun c hc =>
    hthmem c (List.mem_of_mem_take (List.mem_of_mem_drop hc))
  -- time-hi-and-version: '1' followed by 3 hex digits
  have hvlo : 4096 ≤ (parseHexNat (((v1TimeHex now).take ((v1TimeHex now).length - 12)).drop
      ((v1TimeHex now).length - 16)) &&& 0x0fff) ||| 0x1000 := right_le_or _ _
  have hvhi : (parseHexNat (((v1TimeHex now).take ((v1TimeHex now).length - 12)).drop
      ((v1TimeHex now).length - 16)) &&& 0x0fff) ||| 0x1000 < 8192 := by
    have h1 : parseHexNat (((v1TimeHex now).take ((v1TimeHex now).length - 12)).drop
        ((v1TimeHex now).length - 16)) &&& 4095 < 2 ^ 13 :=
      lt_of_le_of_lt Nat.and_le_right (by norm_num)
    have h2 : (4096 : ℕ) < 2 ^ 13 := by norm_num
    have h3 := @Nat.or_lt_two_pow _ 4096 13 h1 h2
    norm_num at h3
    exact h3
  have hfour := natToHex_four_digit _ hvlo hvhi
  have hClist : v1TimeHiAndVersion now = '1' ::
      [hexDigitChar (((parseHexNat (((v1TimeHex now).take ((v1TimeHex now).length - 12)).drop
          ((v1TimeHex now).length - 16)) &&& 0x0fff) ||| 0x1000) / 256 % 16),
        hexDigitChar (((parseHexNat (((v1TimeHex now).take ((v1TimeHex now).length - 12)).drop
          ((v1TimeHex now).length - 16)) &&& 0x0fff) ||| 0x1000) / 16 % 16),
        hexDigitChar (((parseHexNat (((v1TimeHex now).take ((v1TimeHex now).length - 12)).drop
          ((v1TimeHex now).length - 16)) &&& 0x0fff) ||| 0x1000) % 16)] := by
    unfold v1TimeHiAndVersion
    rw [hfour]
    rfl
  have hClen : (v1TimeHiAndVersion now).length = 4 := by rw [hClist]; rfl
  have hCmem : ∀ c ∈ v1TimeHiAndVersion now, c ∈ hexDigitChars := by
    rw [hClist]
    intro c hc
    rcases List.mem_cons.mp hc with rfl | hc
    · decide
    · rcases List.mem_cons.mp hc with rfl | hc
      · exact hexDigitChar_mem _ (Nat.mod_lt _ (by norm_num))
      · rcases List.mem_cons.mp hc with rfl | hc
        · exact hexDigitChar_mem _ (Nat.mod_lt _ (by norm_num))
        · rcases List.mem_cons.mp hc with rfl | hc
          · exact hexDigitChar_mem _ (Nat.mod_lt _ (by norm_num))
          · simp at hc
  -- clock sequence: stamped first byte
  have hs8 := hfact8 (clock0.getD 0 0 &&& 63) (Nat.lt_succ_of_le Nat.and_le_right)
  have hcslt : ∀ b ∈ v1ClockSeq clock0, b < 256 := by
    intro b hb
    rcases List.mem_or_eq_of_mem_set hb with hb | rfl
    · exact hcb b hb
    · exact hs8.2.2
  have hcslen : (v1ClockSeq clock0).length = 2 := by
    unfold v1ClockSeq
    rw [List.length_set, hc2]
  have hDlen : (((v1ClockSeq clock0).map byteHex).flatten).length = 4 := by
    rw [flatten_byteHex_length _ hcslt, hcslen]
  have hDmem := flatten_byteHex_mem (v1ClockSeq clock0)
  have hEmem := flatten_byteHex_mem (v1Node node0)
  have hget0 : (v1ClockSeq clock0).getD 0 0 = (clock0.getD 0 0 &&& 0x3f) ||| 0x80 := by
    unfold v1ClockSeq
    rw [List.getD_eq_getElem?_getD, List.getElem?_set_self (by rw [hc2]; norm_num)]
    rfl
  have hstrip : stripDashes (generateV1Uuid now node0 clock0).data
      = v1TimeLow now ++ (v1TimeMid now ++ (v1TimeHiAndVersion now
        ++ (((v1ClockSeq clock0).map byteHex).flatten
          ++ ((v1Node node0).map byteHex).flatten))) := by
    show stripDashes (v1TimeLow now ++ '-' :: (v1TimeMid now
      ++ '-' :: (v1TimeHiAndVersion now ++ '-' :: (((v1ClockSeq clock0).map byteHex).flatten
        ++ '-' :: ((v1Node node0).map byteHex).flatten)))) = _
    exact stripDashes_parts _ _ _ _ _ hAmem hBmem hCmem hDmem hEmem
  constructor
  · show (stripDashes (generateV1Uuid now node0 clock0).data)[12]? = some '1'
    rw [hstrip, List.getElem?_append_right (by rw [hAlen]; norm_num), hAlen,
      List.getElem?_append_right (by rw [hBlen]), hBlen,
      List.getElem?_append_left (by rw [hClen]; norm_num), hClist]
    rfl
  · refine ⟨hexDigitChar ((((clock0.getD 0 0 &&& 0x3f) ||| 0x80)) / 16), ?_, hs8.1⟩
    show (stripDashes (generateV1Uuid now node0 clock0).data)[16]? = some _
    rw [hstrip, List.getElem?_append_right (by rw [hAlen]; norm_num), hAlen,
      List.getElem?_append_right (by rw [hBlen]; norm_num), hBlen,
      List.getElem?_append_right (by rw [hClen]), hClen,
      List.getElem?_append_left (by rw [hDlen]; norm_num),
      show (16 : ℕ) - 8 - 4 - 4 = 2 * 0 by norm_num,
      flatten_byteHex_get _ hcslt 0 (by rw [hcslen]; norm_num), hget0,
      if_neg hs8.2.1]

/-! ## Claim theorems -/

/-- C2: every UUID produced by `generateV4Uuid`, `generateV1Uuid` or
`generateV5Uuid` (over all random bytes, timestamps and namespace/name
inputs, with the byte inputs ranging over the values a `Uint8Array` can
hold and the SHA-1 primitive returning 20 bytes) has its 13th hex digit
equal to the generator's version digit (4, 1, 5 respectively) and its
17th hex digit in `{8, 9, a, b}`. -/
theorem uuid_version_variant_stamping :
    (∀ bytes : List ℕ, bytes.length = 16 → (∀ b ∈ bytes, b < 256) →
      nthHex (generateV4Uuid bytes) 12 = some '4'
      ∧ ∃ c, nthHex (generateV4Uuid bytes) 16 = some c
          ∧ c ∈ (['8', '9', 'a', 'b'] : List Char))
    ∧ (∀ (now : ℕ) (node0 clock0 : List ℕ), node0.length = 6 → clock0.length = 2 →
      (∀ b ∈ node0, b < 256) → (∀ b ∈ clock0, b < 256) →
      nthHex (generateV1Uuid now node0 clock0) 12 = some '1'
      ∧ ∃ c, nthHex (generateV1Uuid now node0 clock0) 16 = some c
          ∧ c ∈ (['8', '9', 'a', 'b'] : List Char))
    ∧ (∀ (sha1 : List ℕ → List ℕ) (ns nm : String),
      (∀ bs, (sha1 bs).length = 20) → (∀ bs, ∀ b ∈ sha1 bs, b < 256) →
      nthHex (generateV5Uuid sha1 ns nm) 12 = some '5'
      ∧ ∃ c, nthHex (generateV5Uuid sha1 ns nm) 16 = some c
          ∧ c ∈ (['8', '9', 'a', 'b'] : List Char)) :=
  ⟨fun bytes h1 h2 => v4_digits bytes h1 h2,
   fun now node0 clock0 _ hc2 _ hcb => v1_digits now node0 clock0 hc2 hcb,
   fun sha1 ns nm h1 h2 => v5_digits sha1 ns nm h1 h2⟩

/-- Witness for C2: the stamping theorem applied to concrete all-zero
entropy for each of the three generators. -/
theorem uuid_version_variant_stamping_witness :
    (nthHex (generateV4Uuid (List.replicate 16 0)) 12 = some '4'
      ∧ ∃ c, nthHex (generateV4Uuid (List.replicate 16 0)) 16 = some c
          ∧ c ∈ (['8', '9', 'a', 'b'] : List Char))
    ∧ (nthHex (generateV1Uuid 0 (List.replicate 6 0) (List.replicate 2 0)) 12 = some '1'
      ∧ ∃ c, nthHex (generateV1Uuid 0 (List.replicate 6 0) (List.replicate 2 0)) 16 = some c
          ∧ c ∈ (['8', '9', 'a', 'b'] : List Char))
    ∧ (nthHex (generateV5Uuid (fun _ => List.replicate 20 0) "n" "x") 12 = some '5'
      ∧ ∃ c, nthHex (generateV5Uuid (fun _ => List.replicate 20 0) "n" "x") 16 = some c
          ∧ c ∈ (['8', '9', 'a', 'b'] : List Char)) :=
  ⟨uuid_version_variant_stamping.1 (List.replicate 16 0) (by decide) (by decide),
   uuid_version_variant_stamping.2.1 0 (List.replicate 6 0) (List.replicate 2 0)
     (by decide) (by decide) (by decide) (by decide),
   uuid_version_variant_stamping.2.2 (fun _ => List.replicate 20 0) "n" "x"
     (fun _ => by simp)
     (fun bs b hb => by rw [List.eq_of_mem_replicate hb]; norm_num)⟩

/-- C3: `generateV5Uuid` is deterministic — with the SHA-1 digest
primitive modelled as a function of the input bytes, two calls with the
same namespace and name (and extensionally equal digest primitives)
return identical strings. -/
theorem generateV5Uuid_deterministic (h1 h2 : List ℕ → List ℕ)
    (hh : ∀ bs, h1 bs = h2 bs) (ns nm : String) :
    generateV5Uuid h1 ns nm = generateV5Uuid h2 ns nm := by
  simp only [generateV5Uuid, hh]

/-- Witness for C3 at a concrete digest function and inputs. -/
theorem generateV5Uuid_deterministic_witness :
    generateV5Uuid (fun _ => List.replicate 20 0) "n" "x"
      = generateV5Uuid (fun _ => List.replicate 20 0) "n" "x" :=
  generateV5Uuid_deterministic _ _ (fun _ => rfl) "n" "x"

/-- C7: on any string rejected by `isValidUuid`, `parseUuid` returns
exactly `{version: 0, variant: "invalid", isValid: false}` with no
timestamp, and (being a total function) never throws. -/
theorem parseUuid_invalid (s : String) (h : isValidUuid s = false) :
    parseUuid s = ⟨0, "invalid", false, none⟩ := by
  simp [parseUuid, h]

/-- Witness for C7: the spec's concrete invalid input. -/
theorem parseUuid_invalid_witness :
    isValidUuid "not-a-uuid" = false
      ∧ parseUuid "not-a-uuid" = ⟨0, "invalid", false, none⟩ :=
  ⟨by decide, parseUuid_invalid "not-a-uuid" (by decide)⟩

/-- C8: `validateHashFormat` accepts exactly the strings of the
algorithm's expected hex length all of whose characters are hex digits;
in particular any string of the wrong length is rejected. -/
theorem validateHashFormat_iff (hash : String) (a : HashAlgorithm) :
    (validateHashFormat hash a = true ↔
      hash.length = hashHexLength a ∧ ∀ c ∈ hash.data, isHexDigit c = true)
    ∧ (hash.length ≠ hashHexLength a → validateHashFormat hash a = false) := by
  have hiff : validateHashFormat hash a = true ↔
      hash.length = hashHexLength a ∧ ∀ c ∈ hash.data, isHexDigit c = true := by
    unfold validateHashFormat
    constructor
    · intro h
      simp only [Bool.and_eq_true, beq_iff_eq, List.all_eq_true] at h
      exact ⟨h.1, h.2.2⟩
    · rintro ⟨h1, h2⟩
      have hpos : 0 < hashHexLength a := by cases a <;> norm_num [hashHexLength]
      have hne : ¬ hash.data.isEmpty = true := by
        rw [List.isEmpty_iff]
        intro he
        rw [String.length, he] at h1
        simp at h1
        omega
      simp only [Bool.and_eq_true, beq_iff_eq, List.all_eq_true, Bool.not_eq_true']
      exact ⟨h1, by simpa using hne, h2⟩
  refine ⟨hiff, fun hne => ?_⟩
  rcases h : validateHashFormat hash a with _ | _
  · rfl
  · exact absurd (hiff.mp h).1 hne

/-- Witness for C8: a correct-length all-hex digest is accepted and a
short all-hex string is rejected. -/
theorem validateHashFormat_iff_witness :
    validateHashFormat "d41d8cd98f00b204e9800998ecf8427e" HashAlgorithm.MD5 = true
      ∧ validateHashFormat "abc" HashAlgorithm.MD5 = false :=
  ⟨(validateHashFormat_iff "d41d8cd98f00b204e9800998ecf8427e" HashAlgorithm.MD5).1.mpr
      ⟨by decide, by decide⟩,
   (validateHashFormat_iff "abc" HashAlgorithm.MD5).2 (by decide)⟩

/-! ## Bulk generation -/

theorem mapM_ok (l : List ℕ) (f : ℕ → String) :
    (l.mapM fun i => (Except.ok (f i) : Except String String)) = .ok (l.map f) := by
  rw [← List.mapM'_eq_mapM]
  induction l with
  | nil => rfl
  | cons a l ih => simp [List.mapM', ih]; rfl

/-- C5: `generateBulkUuids` throws its range error at counts 0 and 1001
before any UUID is produced (the result is the bare error, with no
partial array), and succeeds with exactly 1 and exactly 1000 entries at
the boundary counts, for every version (v5 given truthy namespace and
name arguments). -/
theorem generateBulkUuids_count_bounds (env : ℕ → Entropy) (sha1 : List ℕ → List ℕ) :
    generateBulkUuids env sha1 0 UuidVersion.v4 none none
        = .error "Count must be between 1 and 1000"
    ∧ generateBulkUuids env sha1 1001 UuidVersion.v4 none none
        = .error "Count must be between 1 and 1000"
    ∧ (∀ (version : UuidVersion) (ns nm : Option String),
        (version = UuidVersion.v5 → optTruthy ns = true ∧ optTruthy nm = true) →
        (∃ l, generateBulkUuids env sha1 1 version ns nm = .ok l ∧ l.length = 1)
        ∧ (∃ l, generateBulkUuids env sha1 1000 version ns nm = .ok l
            ∧ l.length = 1000)) := by
  refine ⟨by simp [generateBulkUuids], by norm_num [generateBulkUuids], ?_⟩
  intro version ns nm hv5
  have hok : ∀ count : ℤ, 1 ≤ count → count ≤ 1000 →
      ∃ l, generateBulkUuids env sha1 count version ns nm = .ok l
        ∧ l.length = count.toNat := by
    intro count h1 h2
    unfold generateBulkUuids
    rw [if_neg (by omega)]
    by_cases hb : (version == UuidVersion.v5 && optTruthy ns && optTruthy nm) = true
    · rw [if_pos hb]
      exact ⟨_, rfl, by simp⟩
    · rw [if_neg hb]
      cases version with
      | v1 =>
        rw [show (fun i => generateUuid (env i) sha1 UuidVersion.v1 ns nm)
            = fun i => Except.ok (generateV1Uuid (env i).now (env i).node6 (env i).clock2)
          from rfl, mapM_ok]
        exact ⟨_, rfl, by simp⟩
      | v4 =>
        rw [show (fun i => generateUuid (env i) sha1 UuidVersion.v4 ns nm)
            = fun i => Except.ok (generateV4Uuid (env i).rand16) from rfl, mapM_ok]
        exact ⟨_, rfl, by simp⟩
      | v5 =>
        rcases hv5 rfl with ⟨hns, hnm⟩
        rw [hns, hnm] at hb
        exact absurd hb (by decide)
  exact ⟨hok 1 (by norm_num) (by norm_num), hok 1000 (by norm_num) (by norm_num)⟩

/-- Witness for C5: concrete entropy and digest, v4 at counts 1 and
1000 and the two failing counts. -/
theorem generateBulkUuids_count_bounds_witness :
    generateBulkUuids (fun _ => ⟨0, List.replicate 16 0, List.replicate 6 0,
        List.replicate 2 0⟩) (fun _ => List.replicate 20 0) 0 UuidVersion.v4 none none
      = .error "Count must be between 1 and 1000"
    ∧ (∃ l, generateBulkUuids (fun _ => ⟨0, List.replicate 16 0, List.replicate 6 0,
        List.replicate 2 0⟩) (fun _ => List.replicate 20 0) 1000 UuidVersion.v4 none none
      = .ok l ∧ l.length = 1000) :=
  ⟨(generateBulkUuids_count_bounds _ _).1,
   ((generateBulkUuids_count_bounds _ _).2.2 UuidVersion.v4 none none
      (fun h => by cases h)).2⟩

theorem generateBulkUuids_v5_branch (env : ℕ → Entropy) (sha1 : List ℕ → List ℕ)
    (count : ℤ) (ns nm : String) (hns : ns ≠ "") (hnm : nm ≠ "")
    (h1 : 1 ≤ count) (h2 : count ≤ 1000) :
    generateBulkUuids env sha1 count UuidVersion.v5 (some ns) (some nm)
      = .ok ((List.range count.toNat).map fun i =>
          generateV5Uuid sha1 ns
            (if count = 1 then nm else nm ++ "_" ++ toString i)) := by
  have htns : optTruthy (some ns) = true := by simp [optTruthy, hns]
  have htnm : optTruthy (some nm) = true := by simp [optTruthy, hnm]
  unfold generateBulkUuids
  rw [if_neg (by omega), if_pos (by rw [htns, htnm]; decide)]
  rfl

/-- C6: the v5 bulk naming scheme — `generateBulkUuids(1, "v5", ns, nm)`
is `[generateV5Uuid(ns, nm)]` with the unsuffixed name, and for any
count in range every entry at index `i ≥ 1` is
`generateV5Uuid(ns, nm + "_" + i)`. -/
theorem generateBulkUuids_v5_names (env : ℕ → Entropy) (sha1 : List ℕ → List ℕ)
    (count : ℤ) (ns nm : String) (hns : ns ≠ "") (hnm : nm ≠ "")
    (h1 : 1 ≤ count) (h2 : count ≤ 1000) :
    (count = 1 → generateBulkUuids env sha1 count UuidVersion.v5 (some ns) (some nm)
        = .ok [generateV5Uuid sha1 ns nm])
    ∧ (∃ l, generateBulkUuids env sha1 count UuidVersion.v5 (some ns) (some nm) = .ok l
        ∧ l.length = count.toNat
        ∧ ∀ i, 1 ≤ i → i < count.toNat →
            l[i]? = some (generateV5Uuid sha1 ns (nm ++ "_" ++ toString i))) := by
  have hb := generateBulkUuids_v5_branch env sha1 count ns nm hns hnm h1 h2
  constructor
  · intro hc1
    subst hc1
    rw [hb]
    simp [List.range_succ]
  · refine ⟨_, hb, by simp, ?_⟩
    intro i hi1 hi2
    have hcne : count ≠ 1 := by
      intro hc
      subst hc
      simp at hi2
      omega
    rw [List.getElem?_map, List.getElem?_range hi2]
    simp [hcne]

/-- Witness for C6: count 2, namespace "n", name "x". -/
theorem generateBulkUuids_v5_names_witness :
    ∃ l, generateBulkUuids (fun _ => ⟨0, [], [], []⟩) (fun _ => List.replicate 20 0)
        2 UuidVersion.v5 (some "n") (some "x") = .ok l
      ∧ l.length = (2 : ℤ).toNat
      ∧ ∀ i, 1 ≤ i → i < (2 : ℤ).toNat →
          l[i]? = some (generateV5Uuid (fun _ => List.replicate 20 0) "n"
            ("x" ++ "_" ++ toString i)) :=
  (generateBulkUuids_v5_names (fun _ => ⟨0, [], [], []⟩) (fun _ => List.replicate 20 0)
    2 "n" "x" (by decide) (by decide) (by norm_num) (by norm_num)).2

/-- C10: for v5 bulk generation with count > 1 the entry at index 0 is
`generateV5Uuid(ns, nm + "_0")`, and — whenever the suffixed digests do
not collide with the unsuffixed one — the unsuffixed
`generateV5Uuid(ns, nm)` appears nowhere in the bulk result. -/
theorem generateBulkUuids_v5_index0 (env : ℕ → Entropy) (sha1 : List ℕ → List ℕ)
    (count : ℤ) (ns nm : String) (hns : ns ≠ "") (hnm : nm ≠ "")
    (h1 : 1 < count) (h2 : count ≤ 1000)
    (hcol : ∀ i < count.toNat,
      generateV5Uuid sha1 ns (nm ++ "_" ++ toString i) ≠ generateV5Uuid sha1 ns nm) :
    ∃ l, generateBulkUuids env sha1 count UuidVersion.v5 (some ns) (some nm) = .ok l
      ∧ l[0]? = some (generateV5Uuid sha1 ns (nm ++ "_0"))
      ∧ generateV5Uuid sha1 ns nm ∉ l := by
  have hb := generateBulkUuids_v5_branch env sha1 count ns nm hns hnm (by omega) h2
  have hct : 2 ≤ count.toNat := by omega
  have hcne : count ≠ 1 := by omega
  refine ⟨_, hb, ?_, ?_⟩
  · rw [List.getElem?_map, List.getElem?_range (by omega)]
    have he : nm ++ "_" ++ toString (0 : ℕ) = nm ++ "_0" := by
      rw [String.append_assoc]
      rfl
    simp only [Option.map_some']
    rw [if_neg hcne, he]
  · intro hmem
    rcases List.mem_map.mp hmem with ⟨i, hir, heq⟩
    rw [if_neg hcne] at heq
    exact hcol i (List.mem_range.mp hir) heq

/-- Witness for C10: count 2 with a digest function for which the
suffixed and unsuffixed names digest differently. -/
theorem generateBulkUuids_v5_index0_witness :
    ∃ l, generateBulkUuids (fun _ => ⟨0, [], [], []⟩)
        (fun bs => (bs ++ List.replicate 20 0).take 20)
        2 UuidVersion.v5 (some "n") (some "x") = .ok l
      ∧ l[0]? = some (generateV5Uuid (fun bs => (bs ++ List.replicate 20 0).take 20)
          "n" ("x" ++ "_0"))
      ∧ generateV5Uuid (fun bs => (bs ++ List.replicate 20 0).take 20) "n" "x" ∉ l :=
  generateBulkUuids_v5_index0 (fun _ => ⟨0, [], [], []⟩)
    (fun bs => (bs ++ List.replicate 20 0).take 20) 2 "n" "x"
    (by decide) (by decide) (by norm_num) (by norm_num) (by decide)

/-! ## Decomposition of validated UUID strings -/

theorem mem_of_versionChars_contains {c : Char} (h : versionChars.contains c = true) :
    c ∈ versionChars := by
  simpa using h

theorem mem_of_variantChars_contains {c : Char} (h : variantChars.contains c = true) :
    c ∈ variantChars := by
  simpa using h

theorem group_split (cs : List Char) (a m k b n : ℕ) (hb : b = a + m) (hn : n = m + k) :
    group cs a n = group cs a m ++ group cs b k := by
  subst hb hn
  unfold group
  rw [List.take_add, List.drop_drop]

theorem isValidUuid_parts (s : String) (h : isValidUuid s = true) :
    s.data.length = 36
    ∧ (∀ c ∈ group s.data 0 8, c ∈ hexDigitChars)
    ∧ group s.data 8 1 = ['-']
    ∧ (∀ c ∈ group s.data 9 4, c ∈ hexDigitChars)
    ∧ group s.data 13 1 = ['-']
    ∧ (∀ c ∈ group s.data 14 1, c ∈ versionChars)
    ∧ (∀ c ∈ group s.data 15 3, c ∈ hexDigitChars)
    ∧ group s.data 18 1 = ['-']
    ∧ (∀ c ∈ group s.data 19 1, c ∈ variantChars)
    ∧ (∀ c ∈ group s.data 20 3, c ∈ hexDigitChars)
    ∧ group s.data 23 1 = ['-']
    ∧ (∀ c ∈ group s.data 24 12, c ∈ hexDigitChars) := by
  unfold isValidUuid at h
  simp only [Bool.and_eq_true, beq_iff_eq, List.all_eq_true] at h
  obtain ⟨⟨⟨⟨⟨⟨⟨⟨⟨⟨⟨h36, h0⟩, h8⟩, h9⟩, h13⟩, h14⟩, h15⟩, h18⟩, h19⟩, h20⟩, h23⟩, h24⟩ := h
  exact ⟨h36,
    fun c hc => (isHexDigit_iff c).mp (h0 c hc), h8,
    fun c hc => (isHexDigit_iff c).mp (h9 c hc), h13,
    fun c hc => mem_of_versionChars_contains (h14 c hc),
    fun c hc => (isHexDigit_iff c).mp (h15 c hc), h18,
    fun c hc => mem_of_variantChars_contains (h19 c hc),
    fun c hc => (isHexDigit_iff c).mp (h20 c hc), h23,
    fun c hc => (isHexDigit_iff c).mp (h24 c hc)⟩

theorem isValidUuid_strip (s : String) (h : isValidUuid s = true) :
    ∃ c14 c19,
      stripDashes s.data
        = group s.data 0 8 ++ (group s.data 9 4 ++ ([c14] ++ (group s.data 15 3
          ++ ([c19] ++ (group s.data 20 3 ++ group s.data 24 12)))))
      ∧ c14 ∈ versionChars ∧ c19 ∈ variantChars := by
  obtain ⟨h36, h0, h8, h9, h13, h14, h15, h18, h19, h20, h23, h24⟩ := isValidUuid_parts s h
  have e0 : group s.data 0 36 = s.data := by
    unfold group
    rw [List.drop_zero, ← h36, List.take_length]
  have hsplit : s.data = group s.data 0 8 ++ (group s.data 8 1 ++ (group s.data 9 4
      ++ (group s.data 13 1 ++ (group s.data 14 1 ++ (group s.data 15 3
        ++ (group s.data 18 1 ++ (group s.data 19 1 ++ (group s.data 20 3
          ++ (group s.data 23 1 ++ group s.data 24 12))))))))) := by
    have hs := e0.symm
    rw [group_split s.data 0 8 28 8 36 rfl rfl,
      group_split s.data 8 1 27 9 28 rfl rfl,
      group_split s.data 9 4 23 13 27 rfl rfl,
      group_split s.data 13 1 22 14 23 rfl rfl,
      group_split s.data 14 1 21 15 22 rfl rfl,
      group_split s.data 15 3 18 18 21 rfl rfl,
      group_split s.data 18 1 17 19 18 rfl rfl,
      group_split s.data 19 1 16 20 17 rfl rfl,
      group_split s.data 20 3 13 23 16 rfl rfl,
      group_split s.data 23 1 12 24 13 rfl rfl] at hs
    exact hs
  have hg14len : (group s.data 14 1).length = 1 := by
    unfold group
    rw [List.length_take, List.length_drop, h36]
    norm_num
  have hg19len : (group s.data 19 1).length = 1 := by
    unfold group
    rw [List.length_take, List.length_drop, h36]
    norm_num
  obtain ⟨c14, e14⟩ := List.length_eq_one.mp hg14len
  obtain ⟨c19, e19⟩ := List.length_eq_one.mp hg19len
  have hc14 : c14 ∈ versionChars := h14 c14 (by rw [e14]; exact List.mem_singleton_self c14)
  have hc19 : c19 ∈ variantChars := h19 c19 (by rw [e19]; exact List.mem_singleton_self c19)
  refine ⟨c14, c19, ?_, hc14, hc19⟩
  have hfm : ∀ l : List Char, (∀ c ∈ l, c ∈ hexDigitChars) →
      l.filter (fun c => c != '-') = l := fun l hl =>
    List.filter_eq_self.mpr fun c hc => mem_hexDigitChars_ne_dash c (hl c hc)
  have h14s : ∀ c ∈ ([c14] : List Char), c ∈ versionChars := by
    rw [← e14]; exact h14
  have h19s : ∀ c ∈ ([c19] : List Char), c ∈ variantChars := by
    rw [← e19]; exact h19
  calc stripDashes s.data
      = stripDashes (group s.data 0 8 ++ (group s.data 8 1 ++ (group s.data 9 4
        ++ (group s.data 13 1 ++ (group s.data 14 1 ++ (group s.data 15 3
          ++ (group s.data 18 1 ++ (group s.data 19 1 ++ (group s.data 20 3
            ++ (group s.data 23 1 ++ group s.data 24 12)))))))))) := by rw [← hsplit]
    _ = group s.data 0 8 ++ (group s.data 9 4 ++ ([c14] ++ (group s.data 15 3
          ++ ([c19] ++ (group s.data 20 3 ++ group s.data 24 12))))) := by
        rw [h8, h13, h18, h23, e14, e19]
        unfold stripDashes
        simp only [List.filter_append]
        rw [hfm _ h0, hfm _ h9, hfm _ (fun c hc => versionChars_sub_hex c (h14s c hc)),
          hfm _ h15, hfm _ (fun c hc => variantChars_sub_hex c (h19s c hc)),
          hfm _ h20, hfm _ h24]
        simp

theorem isValidUuid_strip_get16 (s : String) (h : isValidUuid s = true) :
    ∃ c19, (stripDashes s.data)[16]? = some c19 ∧ c19 ∈ variantChars := by
  obtain ⟨h36, _⟩ := isValidUuid_parts s h
  obtain ⟨c14, c19, hstrip, _, hc19⟩ := isValidUuid_strip s h
  have hg0 : (group s.data 0 8).length = 8 := by
    unfold group
    rw [List.length_take, List.length_drop, h36]
    norm_num
  have hg9 : (group s.data 9 4).length = 4 := by
    unfold group
    rw [List.length_take, List.length_drop, h36]
    norm_num
  have hg15 : (group s.data 15 3).length = 3 := by
    unfold group
    rw [List.length_take, List.length_drop, h36]
    norm_num
  refine ⟨c19, ?_, hc19⟩
  rw [hstrip, List.getElem?_append_right (by rw [hg0]; norm_num), hg0,
    List.getElem?_append_right (by rw [hg9]; norm_num), hg9,
    List.getElem?_append_right (by norm_num), List.length_singleton,
    List.getElem?_append_right (by rw [hg15]), hg15,
    List.getElem?_append_left (by norm_num)]
  rfl

/-- C9: whenever `parseUuid` reports a valid UUID, the variant is
exactly `"RFC 4122"`: the NCS / Microsoft / reserved branches of the
classification are unreachable because `isValidUuid` restricts the
17th hex digit to `8/9/a/b` (case-insensitively) before
classification runs. -/
theorem parseUuid_valid_variant (s : String) (h : (parseUuid s).isValid = true) :
    (parseUuid s).variant = "RFC 4122" := by
  by_cases hv : isValidUuid s = true
  · obtain ⟨c19, hidx, hc19⟩ := isValidUuid_strip_get16 s hv
    simp only [parseUuid, hv, if_true, List.getD_eq_getElem?_getD, hidx,
      Option.getD_some]
    simp only [variantChars, List.mem_cons, List.mem_singleton] at hc19
    rcases hc19 with rfl | rfl | rfl | rfl | rfl | rfl | hfalse
    · decide
    · decide
    · decide
    · decide
    · decide
    · decide
    · simp at hfalse
  · have hinv : parseUuid s = ⟨0, "invalid", false, none⟩ := by
      simp [parseUuid, hv]
    rw [hinv] at h
    simp at h

/-- Witness for C9: a concrete valid v4 UUID parses to the RFC 4122
variant. -/
theorem parseUuid_valid_variant_witness :
    (parseUuid "12345678-1234-4234-8234-123456789abc").variant = "RFC 4122" :=
  parseUuid_valid_variant "12345678-1234-4234-8234-123456789abc" (by decide)

/-! ## Formatting round-trips -/

theorem toLower_mem_hex : ∀ c ∈ hexDigitChars, Char.toLower c ∈ hexDigitChars := by decide

theorem toUpper_mem_hex : ∀ c ∈ hexDigitChars, Char.toUpper c ∈ hexDigitChars := by decide

theorem toLower_toLower_hex :
    ∀ c ∈ hexDigitChars, Char.toLower (Char.toLower c) = Char.toLower c := by decide

theorem toLower_toUpper_hex :
    ∀ c ∈ hexDigitChars, Char.toLower (Char.toUpper c) = Char.toLower c := by decide

theorem isValidUuid_strip_hex (s : String) (h : isValidUuid s = true) :
    (stripDashes s.data).length = 32 ∧ ∀ c ∈ stripDashes s.data, c ∈ hexDigitChars := by
  obtain ⟨h36, _⟩ := isValidUuid_parts s h
  obtain ⟨c14, c19, hstrip, hc14, hc19⟩ := isValidUuid_strip s h
  constructor
  · rw [hstrip]
    simp only [List.length_append, List.length_cons, List.length_singleton,
      List.length_nil]
    unfold group
    simp only [List.length_take, List.length_drop, h36]
    omega
  · rw [hstrip]
    intro c hc
    rcases List.mem_append.mp hc with hc | hc
    · exact (isValidUuid_parts s h).2.1 c hc
    · rcases List.mem_append.mp hc with hc | hc
      · exact (isValidUuid_parts s h).2.2.2.1 c hc
      · rcases List.mem_append.mp hc with hc | hc
        · rw [List.mem_singleton.mp hc]
          exact versionChars_sub_hex c14 hc14
        · rcases List.mem_append.mp hc with hc | hc
          · exact (isValidUuid_parts s h).2.2.2.2.2.2.1 c hc
          · rcases List.mem_append.mp hc with hc | hc
            · rw [List.mem_singleton.mp hc]
              exact variantChars_sub_hex c19 hc19
            · rcases List.mem_append.mp hc with hc | hc
              · exact (isValidUuid_parts s h).2.2.2.2.2.2.2.2.2.1 c hc
              · exact (isValidUuid_parts s h).2.2.2.2.2.2.2.2.2.2.2 c hc

theorem mem_dashed32 (x : List Char) (c : Char) (hc : c ∈ dashed32 x) :
    c = '-' ∨ c ∈ x := by
  unfold dashed32 at hc
  rcases List.mem_append.mp hc with hc | hc
  · exact Or.inr (List.mem_of_mem_take hc)
  · rcases List.mem_cons.mp hc with rfl | hc
    · exact Or.inl rfl
    · rcases List.mem_append.mp hc with hc | hc
      · exact Or.inr (List.mem_of_mem_drop (List.mem_of_mem_take hc))
      · rcases List.mem_cons.mp hc with rfl | hc
        · exact Or.inl rfl
        · rcases List.mem_append.mp hc with hc | hc
          · exact Or.inr (List.mem_of_mem_drop (List.mem_of_mem_take hc))
          · rcases List.mem_cons.mp hc with rfl | hc
            · exact Or.inl rfl
            · rcases List.mem_append.mp hc with hc | hc
              · exact Or.inr (List.mem_of_mem_drop (List.mem_of_mem_take hc))
              · rcases List.mem_cons.mp hc with rfl | hc
                · exact Or.inl rfl
                · exact Or.inr (List.mem_of_mem_drop (List.mem_of_mem_take hc))

theorem dashed32_map (f : Char → Char) (hfd : f '-' = '-') (x : List Char) :
    dashed32 (x.map f) = (dashed32 x).map f := by
  unfold dashed32
  simp [← List.map_take, ← List.map_drop, hfd]

theorem format_std_dashed (x : List Char) (h32 : x.length = 32)
    (hhex : ∀ c ∈ x, c ∈ hexDigitChars) (f : Char → Char) (hfd : f '-' = '-')
    (hfhex : ∀ c ∈ hexDigitChars, f c ∈ hexDigitChars)
    (hlf : ∀ c ∈ hexDigitChars, Char.toLower (f c) = Char.toLower c) :
    formatUuid ⟨(dashed32 x).map f⟩ UuidFormat.standard
      = ⟨(dashed32 x).map Char.toLower⟩ := by
  have hstrip : stripDashes ((dashed32 x).map f) = x.map f := by
    unfold stripDashes
    rw [List.filter_map]
    have hcong : List.filter ((fun c => c != '-') ∘ f) (dashed32 x)
        = List.filter (fun c => c != '-') (dashed32 x) := by
      apply List.filter_congr
      intro c hc
      rcases mem_dashed32 x c hc with rfl | hcx
      · simp [hfd]
      · have h1 := mem_hexDigitChars_ne_dash _ (hfhex c (hhex c hcx))
        have h2 := mem_hexDigitChars_ne_dash _ (hhex c hcx)
        simp only [Function.comp_apply, h1, h2]
    rw [hcong, show List.filter (fun c => c != '-') (dashed32 x) = x from
      stripDashes_dashed32 x h32 hhex]
  show (⟨(dashed32 (stripDashes ((dashed32 x).map f))).map Char.toLower⟩ : String) = _
  rw [hstrip, dashed32_map f hfd]
  congr 1
  rw [List.map_map]
  apply List.map_congr_left
  intro c hc
  rcases mem_dashed32 x c hc with rfl | hcx
  · simp [Function.comp, hfd]
  · simpa using hlf c (hhex c hcx)

theorem format_std_nodash (x : List Char) (_h32 : x.length = 32)
    (hhex : ∀ c ∈ x, c ∈ hexDigitChars) (f : Char → Char) (hfd : f '-' = '-')
    (hfhex : ∀ c ∈ hexDigitChars, f c ∈ hexDigitChars)
    (hlf : ∀ c ∈ hexDigitChars, Char.toLower (f c) = Char.toLower c) :
    formatUuid ⟨x.map f⟩ UuidFormat.standard
      = ⟨(dashed32 x).map Char.toLower⟩ := by
  have hstrip : stripDashes (x.map f) = x.map f := by
    apply stripDashes_of_hex
    intro c hc
    rcases List.mem_map.mp hc with ⟨d, hd, rfl⟩
    exact hfhex d (hhex d hd)
  show (⟨(dashed32 (stripDashes (x.map f))).map Char.toLower⟩ : String) = _
  rw [hstrip, dashed32_map f hfd]
  congr 1
  rw [List.map_map]
  apply List.map_congr_left
  intro c hc
  rcases mem_dashed32 x c hc with rfl | hcx
  · simp [Function.comp, hfd]
  · simpa using hlf c (hhex c hcx)

/-- C4: for every valid UUID and every output style,
`formatUuid(formatUuid(u, s), "standard")` equals
`formatUuid(u, "standard")` — dash stripping and reinsertion loses
nothing. -/
theorem formatUuid_roundtrip (u : String) (hu : isValidUuid u = true) (s : UuidFormat) :
    formatUuid (formatUuid u s) UuidFormat.standard = formatUuid u UuidFormat.standard := by
  obtain ⟨h32, hhex⟩ := isValidUuid_strip_hex u hu
  cases s with
  | standard =>
    exact format_std_dashed _ h32 hhex Char.toLower (by decide) toLower_mem_hex
      toLower_toLower_hex
  | noDashes =>
    exact format_std_nodash _ h32 hhex Char.toLower (by decide) toLower_mem_hex
      toLower_toLower_hex
  | uppercase =>
    exact format_std_dashed _ h32 hhex Char.toUpper (by decide) toUpper_mem_hex
      toLower_toUpper_hex
  | uppercaseNoDashes =>
    exact format_std_nodash _ h32 hhex Char.toUpper (by decide) toUpper_mem_hex
      toLower_toUpper_hex

/-- Witness for C4: round-trip through the uppercase style at a
concrete valid UUID. -/
theorem formatUuid_roundtrip_witness :
    formatUuid (formatUuid "6ba7b810-9dad-11d1-80b4-00c04fd430c8" UuidFormat.uppercase)
        UuidFormat.standard
      = formatUuid "6ba7b810-9dad-11d1-80b4-00c04fd430c8" UuidFormat.standard :=
  formatUuid_roundtrip "6ba7b810-9dad-11d1-80b4-00c04fd430c8" (by decide)
    UuidFormat.uppercase

/-! ## The v1 timestamp round-trip -/

/-- C1 (code bug): a v1 UUID generated at the mocked instant
`Date.now() = 0` (with node bytes `[1,2,3,4,5,6]` and clock-sequence
bytes `[0,0]`) is `13814000-1dd2-11b2-8000-010203040506`, is parsed as
a valid version-1 UUID, and yet the recovered timestamp is
−12 219 106 315 665 ms — more than 10^12 ms away from the original
instant 0, far outside any sub-millisecond rounding allowance.  The
parse-side reconstruction multiplies `timeHi` by 2^32 and `timeMid` by
2^16 where the generator packed them at bit 48 and bit 32. -/
theorem v1_timestamp_not_recovered :
    generateV1Uuid 0 [1, 2, 3, 4, 5, 6] [0, 0]
        = "13814000-1dd2-11b2-8000-010203040506"
    ∧ (parseUuid (generateV1Uuid 0 [1, 2, 3, 4, 5, 6] [0, 0])).isValid = true
    ∧ (parseUuid (generateV1Uuid 0 [1, 2, 3, 4, 5, 6] [0, 0])).version = 1
    ∧ (parseUuid (generateV1Uuid 0 [1, 2, 3, 4, 5, 6] [0, 0])).timestamp
        = some (-12219106315665)
    ∧ (-12219106315665 : ℤ) ≠ 0
    ∧ (10 ^ 12 : ℤ) < |(-12219106315665 : ℤ)| :=
  ⟨by decide, by decide, by decide, by decide, by decide, by decide⟩
